import Mathlib

/-!
# InstallCommand of winget-cli: argument validation, completion dispatch, execution pipeline

A shallow embedding of `src/AppInstallerCLICore/Commands/InstallCommand.cpp`.
Exceptions become `Except CommandException`, the context sequencing operator `<<`
becomes an explicit operation on a context type, and the collaborators declared in
other translation units are taken as parameters (structure `Collaborators`).
-/

namespace AppInstaller.CLI

/-! ## Data model -/

/-- Members of `Args::Type` that InstallCommand.cpp names, in the order of their first
occurrence in `GetArguments`; `Other n` stands for any further member of the
enumeration, which is declared outside this file. -/
inductive ArgType where
  | Query
  | Manifest
  | Id
  | Name
  | Moniker
  | Version
  | Channel
  | Source
  | InstallScope
  | InstallArchitecture
  | Exact
  | Interactive
  | Silent
  | Locale
  | Log
  | Override
  | InstallLocation
  | HashOverride
  | DependencySource
  | AcceptPackageAgreements
  | CustomHeader
  | AcceptSourceAgreements
  | Other (n : Nat)
  deriving DecidableEq, Repr

/-- Identifiers of `Resource::String` that InstallCommand.cpp names. Distinct identifiers
denote distinct string resources. -/
inductive ResourceString where
  | InstallScopeDescription
  | InstallArchitectureArgumentDescription
  | InstallCommandShortDescription
  | InstallCommandLongDescription
  | BothManifestAndSearchQueryProvided
  | InvalidArgumentValueError
  | InvalidArgumentValueErrorWithoutValidValues
  deriving DecidableEq, Repr

/-- Modelled from the spec: `Manifest::ScopeEnum` (declared outside src/), the scope of
an installer record: user, machine or unknown. -/
inductive ScopeEnum where
  | Unknown
  | User
  | Machine
  deriving DecidableEq, Repr

/-- Modelled from the spec: `Utility::Architecture` (declared outside src/), the
architecture of an installer record: x86, x64, arm, arm64 or unknown. -/
inductive Architecture where
  | Unknown
  | X86
  | X64
  | Arm
  | Arm64
  deriving DecidableEq, Repr

/-- Modelled from the spec: `CommandException` (declared outside src/) as the three
constructor calls of InstallCommand.cpp use it: the message resource, the argument
name (empty when the constructor gets none) and the list of valid values (empty when
the constructor gets none). -/
structure CommandException where
  message : ResourceString
  param : String
  replace : List String
  deriving DecidableEq, Repr

deriving instance DecidableEq for Except

/-- One argument as the command line supplied it: its type and, unless it is a flag,
its value. -/
structure ParsedArg where
  type : ArgType
  value : Option String
  deriving DecidableEq, Repr

/-- Modelled from the spec: the parsed argument set `Execution::Args` (declared outside
src/): the arguments in the order in which they were supplied. -/
structure Args where
  entries : List ParsedArg
  deriving DecidableEq, Repr

/-- Modelled from the spec: `Args::Contains`, whether an argument of the given type was
supplied. -/
def Args.Contains (execArgs : Args) (t : ArgType) : Bool :=
  execArgs.entries.any (fun p => decide (p.type = t))

/-- Modelled from the spec: `Args::GetArg`, the first value supplied for the given type.
The source calls it only for a type that `Contains` reported; the empty string stands
for a type without value. -/
def Args.GetArg (execArgs : Args) (t : ArgType) : String :=
  match execArgs.entries.findSome? (fun p => if p.type = t then p.value else none) with
  | some v => v
  | none => ""

/-- The collaborators of InstallCommand.cpp that are defined in other translation units,
taken as parameters: the two string-to-enum conversions, the ordered list of
architectures applicable on the host, the rendering of an architecture, the
language-tag check and the name that `Argument::ForType(t).Name()` returns. -/
structure Collaborators where
  ConvertToScopeEnum : String → ScopeEnum
  ConvertToArchitectureEnum : String → Architecture
  GetApplicableArchitectures : List Architecture
  ToString : Architecture → String
  IsWellFormedBcp47Tag : String → Bool
  ForTypeName : ArgType → String

/-- The constant `Utility::InapplicableArchitecture` (declared outside src/): the
result of `IsApplicableArchitecture` for an architecture the host cannot run. -/
def InapplicableArchitecture : Int := -1

/-- Modelled from the spec: `Utility::IsApplicableArchitecture` (defined outside src/)
looks the architecture up in the ordered host list; an architecture in the list gets
its non-negative preference rank (counted from the end of the list), any other gets
`InapplicableArchitecture`. -/
def IsApplicableArchitecture (env : Collaborators) (arch : Architecture) : Int :=
  if arch ∈ env.GetApplicableArchitectures then
    ((env.GetApplicableArchitectures.length - env.GetApplicableArchitectures.indexOf arch : Nat) : Int)
  else InapplicableArchitecture

/-- The constant `s_ArgumentName_Scope` (line 19). -/
def s_ArgumentName_Scope : String := "scope"

/-- The constant `s_ArgumentName_Architecture` (line 20). -/
def s_ArgumentName_Architecture : String := "architecture"

/-! ## GetArguments (lines 23-49) -/

/-- The value `ArgumentType::Standard` and its siblings (declared outside src/); only
`Standard` occurs in this file. -/
inductive ArgumentType where
  | Standard
  | Positional
  | Flag
  deriving DecidableEq, Repr

/-- The value `Argument::Visibility::Help` and its siblings (declared outside src/);
only `Help` occurs in this file. -/
inductive Visibility where
  | Example
  | Help
  | Hidden
  deriving DecidableEq, Repr

/-- An `Argument` as GetArguments builds it: either `Argument::ForType(t)`, the common
definition of the argument for type `t` (its table is outside src/), or the explicit
constructor call with name, alias, type, description, argument type and visibility. -/
inductive Argument where
  | ForType (type : ArgType)
  | mk (name : String) (argAlias : Option Char) (execArgType : ArgType)
      (desc : ResourceString) (argType : ArgumentType) (visibility : Visibility)
  deriving DecidableEq, Repr

/-- The accessor `Argument::ExecArgType`: the argument type an `Argument` stands for. -/
def Argument.ExecArgType : Argument → ArgType
  | .ForType t => t
  | .mk _ _ t _ _ _ => t

/-- The accessor `Argument::Name`; for `ForType` the name comes from the common table. -/
def Argument.Name (env : Collaborators) : Argument → String
  | .ForType t => env.ForTypeName t
  | .mk n _ _ _ _ _ => n

/-- The list built by `InstallCommand::GetArguments` (lines 23-49). -/
def GetArguments : List Argument :=
  [ Argument.ForType ArgType.Query,
    Argument.ForType ArgType.Manifest,
    Argument.ForType ArgType.Id,
    Argument.ForType ArgType.Name,
    Argument.ForType ArgType.Moniker,
    Argument.ForType ArgType.Version,
    Argument.ForType ArgType.Channel,
    Argument.ForType ArgType.Source,
    Argument.mk s_ArgumentName_Scope none ArgType.InstallScope
      ResourceString.InstallScopeDescription ArgumentType.Standard Visibility.Help,
    Argument.mk s_ArgumentName_Architecture (some 'a') ArgType.InstallArchitecture
      ResourceString.InstallArchitectureArgumentDescription ArgumentType.Standard Visibility.Help,
    Argument.ForType ArgType.Exact,
    Argument.ForType ArgType.Interactive,
    Argument.ForType ArgType.Silent,
    Argument.ForType ArgType.Locale,
    Argument.ForType ArgType.Log,
    Argument.ForType ArgType.Override,
    Argument.ForType ArgType.InstallLocation,
    Argument.ForType ArgType.HashOverride,
    Argument.ForType ArgType.DependencySource,
    Argument.ForType ArgType.AcceptPackageAgreements,
    Argument.ForType ArgType.CustomHeader,
    Argument.ForType ArgType.AcceptSourceAgreements ]

/-! ## ValidateArgumentsInternal (lines 94-137) -/

/-- The condition of the first `if` (lines 96-104): a manifest together with any of the
eight query-shaping arguments. -/
def manifestQueryConflict (execArgs : Args) : Bool :=
  execArgs.Contains ArgType.Manifest &&
    (execArgs.Contains ArgType.Query ||
     execArgs.Contains ArgType.Id ||
     execArgs.Contains ArgType.Name ||
     execArgs.Contains ArgType.Moniker ||
     execArgs.Contains ArgType.Version ||
     execArgs.Contains ArgType.Channel ||
     execArgs.Contains ArgType.Source ||
     execArgs.Contains ArgType.Exact)

/-- The list of valid values that the architecture error carries (lines 121-125): one
entry per applicable architecture, rendered with `ToString`, in the host order. -/
def applicableArchitectureNames (env : Collaborators) : List String :=
  env.GetApplicableArchitectures.foldl (fun acc i => acc ++ [env.ToString i]) []

/-- The function `InstallCommand::ValidateArgumentsInternal` (lines 94-137): `ok ()`
when it returns, `error e` when it throws `e`. -/
def ValidateArgumentsInternal (env : Collaborators) (execArgs : Args) :
    Except CommandException Unit := do
  if execArgs.Contains ArgType.Manifest &&
      (execArgs.Contains ArgType.Query ||
       execArgs.Contains ArgType.Id ||
       execArgs.Contains ArgType.Name ||
       execArgs.Contains ArgType.Moniker ||
       execArgs.Contains ArgType.Version ||
       execArgs.Contains ArgType.Channel ||
       execArgs.Contains ArgType.Source ||
       execArgs.Contains ArgType.Exact) then
    throw ⟨ResourceString.BothManifestAndSearchQueryProvided, "", []⟩
  if execArgs.Contains ArgType.InstallScope then
    if env.ConvertToScopeEnum (execArgs.GetArg ArgType.InstallScope) = ScopeEnum.Unknown then
      throw ⟨ResourceString.InvalidArgumentValueError, s_ArgumentName_Scope, ["user", "machine"]⟩
  if execArgs.Contains ArgType.InstallArchitecture then
    let selectedArch := env.ConvertToArchitectureEnum (execArgs.GetArg ArgType.InstallArchitecture)
    if selectedArch = Architecture.Unknown ∨
        IsApplicableArchitecture env selectedArch = InapplicableArchitecture then
      throw ⟨ResourceString.InvalidArgumentValueError, s_ArgumentName_Architecture,
        applicableArchitectureNames env⟩
  if execArgs.Contains ArgType.Locale then
    if ¬ env.IsWellFormedBcp47Tag (execArgs.GetArg ArgType.Locale) then
      throw ⟨ResourceString.InvalidArgumentValueErrorWithoutValidValues,
        (Argument.ForType ArgType.Locale).Name env, []⟩

/-- The four rules of `ValidateArgumentsInternal`, in the order of the source. -/
inductive Rule where
  | ManifestQuery
  | Scope
  | Architecture
  | Locale
  deriving DecidableEq, Repr

/-- Position of a rule in the source. -/
def Rule.index : Rule → Nat
  | .ManifestQuery => 0
  | .Scope => 1
  | .Architecture => 2
  | .Locale => 3

/-- The first block (lines 96-107) on its own. -/
def checkManifestQuery (execArgs : Args) : Except CommandException Unit :=
  if manifestQueryConflict execArgs then
    throw ⟨ResourceString.BothManifestAndSearchQueryProvided, "", []⟩
  else pure ()

/-- The second block (lines 109-115) on its own. -/
def checkScope (env : Collaborators) (execArgs : Args) : Except CommandException Unit :=
  if execArgs.Contains ArgType.InstallScope then
    if env.ConvertToScopeEnum (execArgs.GetArg ArgType.InstallScope) = ScopeEnum.Unknown then
      throw ⟨ResourceString.InvalidArgumentValueError, s_ArgumentName_Scope, ["user", "machine"]⟩
    else pure ()
  else pure ()

/-- The third block (lines 116-128) on its own. -/
def checkArchitecture (env : Collaborators) (execArgs : Args) : Except CommandException Unit :=
  if execArgs.Contains ArgType.InstallArchitecture then
    let selectedArch := env.ConvertToArchitectureEnum (execArgs.GetArg ArgType.InstallArchitecture)
    if selectedArch = Architecture.Unknown ∨
        IsApplicableArchitecture env selectedArch = InapplicableArchitecture then
      throw ⟨ResourceString.InvalidArgumentValueError, s_ArgumentName_Architecture,
        applicableArchitectureNames env⟩
    else pure ()
  else pure ()

/-- The fourth block (lines 130-136) on its own. -/
def checkLocale (env : Collaborators) (execArgs : Args) : Except CommandException Unit :=
  if execArgs.Contains ArgType.Locale then
    if ¬ env.IsWellFormedBcp47Tag (execArgs.GetArg ArgType.Locale) then
      throw ⟨ResourceString.InvalidArgumentValueErrorWithoutValidValues,
        (Argument.ForType ArgType.Locale).Name env, []⟩
    else pure ()
  else pure ()

/-- The block of the source that implements a rule. -/
def runRule (env : Collaborators) : Rule → Args → Except CommandException Unit
  | .ManifestQuery => checkManifestQuery
  | .Scope => checkScope env
  | .Architecture => checkArchitecture env
  | .Locale => checkLocale env

/-- The eight query-shaping argument types that the first rule tests next to Manifest
(lines 97-104), in the order of the source. -/
def queryShapingTypes : List ArgType :=
  [ArgType.Query, ArgType.Id, ArgType.Name, ArgType.Moniker, ArgType.Version,
   ArgType.Channel, ArgType.Source, ArgType.Exact]

/-- The exception thrown at line 106. -/
def manifestQueryError : CommandException :=
  ⟨ResourceString.BothManifestAndSearchQueryProvided, "", []⟩

/-- The exception thrown at line 113. -/
def scopeError : CommandException :=
  ⟨ResourceString.InvalidArgumentValueError, s_ArgumentName_Scope, ["user", "machine"]⟩

/-- The exception thrown at line 126. -/
def architectureError (env : Collaborators) : CommandException :=
  ⟨ResourceString.InvalidArgumentValueError, s_ArgumentName_Architecture,
    applicableArchitectureNames env⟩

/-- The exception thrown at line 134. -/
def localeError (env : Collaborators) : CommandException :=
  ⟨ResourceString.InvalidArgumentValueErrorWithoutValidValues,
    (Argument.ForType ArgType.Locale).Name env, []⟩

/-! ## Context, workflow tasks, Complete (lines 61-87) and ExecuteInternal (lines 139-149) -/

/-- Members of `Execution::ContextFlag`; the file names one, `Other n` stands for the
rest of the enumeration (declared outside src/). -/
inductive ContextFlag where
  | ShowSearchResultsOnPartialFailure
  | Other (n : Nat)
  deriving DecidableEq, Repr

/-- Members of `ExecutionStage`; the file names one, `Other n` stands for the rest of
the enumeration (declared outside src/). -/
inductive ExecutionStage where
  | Discovery
  | Other (n : Nat)
  deriving DecidableEq, Repr

/-- The workflow tasks that InstallCommand.cpp sends into a context with `<<`. Their
bodies are defined in the Workflows directory, outside src/. -/
inductive WorkflowTask where
  | ReportExecutionStage (stage : ExecutionStage)
  | GetManifest
  | SelectInstaller
  | EnsureApplicableInstaller
  | InstallSinglePackage
  | CompleteWithSingleSemanticsForValue (valueType : ArgType)
  | CompleteWithEmptySet
  deriving DecidableEq, Repr

/-- The two operations of `Execution::Context` that InstallCommand.cpp uses, over an
arbitrary context type: `context.SetFlags(flag)` and `context << task`. Both are defined
outside src/ and are taken as parameters. -/
structure ContextOps (σ : Type) where
  SetFlags : σ → ContextFlag → σ
  pipe : σ → WorkflowTask → σ

/-- The function `InstallCommand::Complete` (lines 61-87). The switch has no default
label, so every type without a case leaves the context as it is. -/
def Complete {σ : Type} (ops : ContextOps σ) (context : σ) (valueType : ArgType) : σ :=
  match valueType with
  | .Query | .Manifest | .Id | .Name | .Moniker | .Version | .Channel | .Source =>
    ops.pipe context (WorkflowTask.CompleteWithSingleSemanticsForValue valueType)
  | .Locale =>
    ops.pipe context WorkflowTask.CompleteWithEmptySet
  | .Log | .InstallLocation =>
    context
  | _ => context

/-- The function `InstallCommand::ExecuteInternal` (lines 139-149). -/
def ExecuteInternal {σ : Type} (ops : ContextOps σ) (context : σ) : σ :=
  let context := ops.SetFlags context ContextFlag.ShowSearchResultsOnPartialFailure
  ops.pipe
    (ops.pipe
      (ops.pipe
        (ops.pipe
          (ops.pipe context (WorkflowTask.ReportExecutionStage ExecutionStage.Discovery))
          WorkflowTask.GetManifest)
        WorkflowTask.SelectInstaller)
      WorkflowTask.EnsureApplicableInstaller)
    WorkflowTask.InstallSinglePackage

/-- What a recording context observes: a flag being set or a task being sent in. -/
inductive ContextEvent where
  | SetFlags (flag : ContextFlag)
  | Run (task : WorkflowTask)
  deriving DecidableEq, Repr

/-- A context that only records, in order, the operations applied to it. -/
def recordingOps : ContextOps (List ContextEvent) where
  SetFlags := fun c f => c ++ [ContextEvent.SetFlags f]
  pipe := fun c t => c ++ [ContextEvent.Run t]

/-- The tasks among recorded events, in order. -/
def tasksOf : List ContextEvent → List WorkflowTask
  | [] => []
  | ContextEvent.Run t :: rest => t :: tasksOf rest
  | ContextEvent.SetFlags _ :: rest => tasksOf rest

/-- The exception that the block of a rule throws. -/
def ruleError (env : Collaborators) : Rule → CommandException
  | .ManifestQuery => manifestQueryError
  | .Scope => scopeError
  | .Architecture => architectureError env
  | .Locale => localeError env

/-- Reads the rule back from an exception: the message resource decides, and for
InvalidArgumentValueError the argument name does. -/
def ruleOfError (e : CommandException) : Option Rule :=
  match e.message with
  | ResourceString.BothManifestAndSearchQueryProvided => some Rule.ManifestQuery
  | ResourceString.InvalidArgumentValueError =>
    if e.param = s_ArgumentName_Scope then some Rule.Scope
    else if e.param = s_ArgumentName_Architecture then some Rule.Architecture
    else none
  | ResourceString.InvalidArgumentValueErrorWithoutValidValues => some Rule.Locale
  | _ => none

/-- The argument types that ValidateArgumentsInternal passes to Contains or GetArg
(lines 96-132), in the order of their first use. -/
def validatedTypes : List ArgType :=
  [ArgType.Manifest, ArgType.Query, ArgType.Id, ArgType.Name, ArgType.Moniker,
   ArgType.Version, ArgType.Channel, ArgType.Source, ArgType.Exact,
   ArgType.InstallScope, ArgType.InstallArchitecture, ArgType.Locale]

/-- The case labels of the switch in Complete that send
CompleteWithSingleSemanticsForValue (lines 65-72). -/
def singleSemanticsTypes : List ArgType :=
  [ArgType.Query, ArgType.Manifest, ArgType.Id, ArgType.Name, ArgType.Moniker,
   ArgType.Version, ArgType.Channel, ArgType.Source]

/-- All case labels of the switch in Complete (lines 65-83). -/
def completionCaseTypes : List ArgType :=
  singleSemanticsTypes ++ [ArgType.Locale, ArgType.Log, ArgType.InstallLocation]

/-! ## A concrete host, for evaluating the definitions -/

/-- Lower-cases a string character by character. -/
def lowerCase (s : String) : List Char := s.toList.map Char.toLower

/-- A concrete set of collaborators: an x64 host that also runs x86, case-insensitive
enum names, a language tag accepted when it is made of non-empty alphanumeric groups
separated by a hyphen, and the locale argument named "locale". -/
def sampleHost : Collaborators where
  ConvertToScopeEnum := fun s =>
    if lowerCase s = "user".toList then ScopeEnum.User
    else if lowerCase s = "machine".toList then ScopeEnum.Machine
    else ScopeEnum.Unknown
  ConvertToArchitectureEnum := fun s =>
    if lowerCase s = "x86".toList then Architecture.X86
    else if lowerCase s = "x64".toList then Architecture.X64
    else if lowerCase s = "arm".toList then Architecture.Arm
    else if lowerCase s = "arm64".toList then Architecture.Arm64
    else Architecture.Unknown
  GetApplicableArchitectures := [Architecture.X64, Architecture.X86]
  ToString := fun a =>
    match a with
    | Architecture.Unknown => "unknown"
    | Architecture.X86 => "x86"
    | Architecture.X64 => "x64"
    | Architecture.Arm => "arm"
    | Architecture.Arm64 => "arm64"
  IsWellFormedBcp47Tag := fun s =>
    (s.toList.splitOn '-').all (fun g => !g.isEmpty && g.all Char.isAlphanum)
  ForTypeName := fun t =>
    match t with
    | ArgType.Locale => "locale"
    | _ => ""

/-! ## Concrete argument sets -/

/-- Arguments `--manifest pkg.yaml --id Contoso.App --silent`. -/
def argsManifestThenId : Args :=
  ⟨[⟨ArgType.Manifest, some "pkg.yaml"⟩, ⟨ArgType.Id, some "Contoso.App"⟩,
    ⟨ArgType.Silent, none⟩]⟩

/-- The same arguments in another order: `--silent --id Contoso.App --manifest pkg.yaml`. -/
def argsIdThenManifest : Args :=
  ⟨[⟨ArgType.Silent, none⟩, ⟨ArgType.Id, some "Contoso.App"⟩,
    ⟨ArgType.Manifest, some "pkg.yaml"⟩]⟩

/-- Arguments `--scope bogus --architecture arm`. -/
def argsBadScopeBadArchitecture : Args :=
  ⟨[⟨ArgType.InstallScope, some "bogus"⟩, ⟨ArgType.InstallArchitecture, some "arm"⟩]⟩

/-- Arguments `--id Contoso.App --architecture arm`. -/
def argsBadArchitecture : Args :=
  ⟨[⟨ArgType.Id, some "Contoso.App"⟩, ⟨ArgType.InstallArchitecture, some "arm"⟩]⟩

/-- Arguments `--id Contoso.App --scope bogus`. -/
def argsBadScope : Args :=
  ⟨[⟨ArgType.Id, some "Contoso.App"⟩, ⟨ArgType.InstallScope, some "bogus"⟩]⟩

/-- Arguments `--id Contoso.App --scope Machine`. -/
def argsGoodScope : Args :=
  ⟨[⟨ArgType.Id, some "Contoso.App"⟩, ⟨ArgType.InstallScope, some "Machine"⟩]⟩

/-- Arguments `--scope bogus --locale xx_`. -/
def argsBadScopeBadLocale : Args :=
  ⟨[⟨ArgType.InstallScope, some "bogus"⟩, ⟨ArgType.Locale, some "xx_"⟩]⟩

/-- Arguments `--manifest pkg.yaml --id Contoso.App --locale en-US`. -/
def argsConflictGoodLocale : Args :=
  ⟨[⟨ArgType.Manifest, some "pkg.yaml"⟩, ⟨ArgType.Id, some "Contoso.App"⟩,
    ⟨ArgType.Locale, some "en-US"⟩]⟩

/-- Arguments `--id Contoso.App --locale xx_`. -/
def argsBadLocale : Args :=
  ⟨[⟨ArgType.Id, some "Contoso.App"⟩, ⟨ArgType.Locale, some "xx_"⟩]⟩

/-- Arguments `--id Contoso.App --locale en-US`. -/
def argsGoodLocale : Args :=
  ⟨[⟨ArgType.Id, some "Contoso.App"⟩, ⟨ArgType.Locale, some "en-US"⟩]⟩

/-- Arguments `--scope bogus` alone. -/
def argsOnlyBadScope : Args :=
  ⟨[⟨ArgType.InstallScope, some "bogus"⟩]⟩

/-- Arguments `--silent --log out.txt`. -/
def argsSilentLog : Args :=
  ⟨[⟨ArgType.Silent, none⟩, ⟨ArgType.Log, some "out.txt"⟩]⟩

/-- Arguments `--id Contoso.App --scope user --architecture x64 --locale en-US`. -/
def argsAllValid : Args :=
  ⟨[⟨ArgType.Id, some "Contoso.App"⟩, ⟨ArgType.InstallScope, some "user"⟩,
    ⟨ArgType.InstallArchitecture, some "x64"⟩, ⟨ArgType.Locale, some "en-US"⟩]⟩

/-- Arguments `--silent --id Contoso.App --scope user --architecture x64 --locale en-US`. -/
def argsAllValidSilent : Args :=
  ⟨[⟨ArgType.Silent, none⟩, ⟨ArgType.Id, some "Contoso.App"⟩,
    ⟨ArgType.InstallScope, some "user"⟩,
    ⟨ArgType.InstallArchitecture, some "x64"⟩, ⟨ArgType.Locale, some "en-US"⟩]⟩

/-! ## Shared lemmas -/

theorem validate_eq_rules (env : Collaborators) (a : Args) :
    ValidateArgumentsInternal env a =
      (do checkManifestQuery a; checkScope env a; checkArchitecture env a; checkLocale env a) := by
  unfold ValidateArgumentsInternal checkManifestQuery checkScope checkArchitecture checkLocale
    manifestQueryConflict
  by_cases h1 : (a.Contains ArgType.Manifest &&
        (a.Contains ArgType.Query || a.Contains ArgType.Id || a.Contains ArgType.Name ||
          a.Contains ArgType.Moniker || a.Contains ArgType.Version ||
          a.Contains ArgType.Channel || a.Contains ArgType.Source ||
          a.Contains ArgType.Exact)) = true <;>
  by_cases h2 : a.Contains ArgType.InstallScope = true <;>
  by_cases h3 : env.ConvertToScopeEnum (a.GetArg ArgType.InstallScope) = ScopeEnum.Unknown <;>
  by_cases h4 : a.Contains ArgType.InstallArchitecture = true <;>
  by_cases h5 : (env.ConvertToArchitectureEnum (a.GetArg ArgType.InstallArchitecture)
        = Architecture.Unknown ∨
      IsApplicableArchitecture env
        (env.ConvertToArchitectureEnum (a.GetArg ArgType.InstallArchitecture))
        = InapplicableArchitecture) <;>
  by_cases h6 : a.Contains ArgType.Locale = true <;>
  by_cases h7 : env.IsWellFormedBcp47Tag (a.GetArg ArgType.Locale) = true <;>
  simp only [h1, h2, h3, h4, h5, h6, h7, if_true, if_false, not_true_eq_false,
    not_false_eq_true] <;> rfl

theorem validate_of_conflict (env : Collaborators) (a : Args)
    (h : manifestQueryConflict a = true) :
    ValidateArgumentsInternal env a = Except.error manifestQueryError := by
  rw [validate_eq_rules]
  simp [checkManifestQuery, h, bind, Except.bind, throw, throwThe, MonadExceptOf.throw,
    manifestQueryError]

theorem checkManifestQuery_eq (a : Args) :
    checkManifestQuery a =
      if manifestQueryConflict a = true then Except.error manifestQueryError else Except.ok () := by
  rfl

theorem checkScope_eq (env : Collaborators) (a : Args) :
    checkScope env a =
      if a.Contains ArgType.InstallScope = true ∧
          env.ConvertToScopeEnum (a.GetArg ArgType.InstallScope) = ScopeEnum.Unknown
      then Except.error scopeError else Except.ok () := by
  unfold checkScope
  by_cases h1 : a.Contains ArgType.InstallScope = true <;>
  by_cases h2 : env.ConvertToScopeEnum (a.GetArg ArgType.InstallScope) = ScopeEnum.Unknown <;>
  simp [h1, h2] <;> rfl

theorem isApplicable_inapplicable_iff (env : Collaborators) (x : Architecture) :
    IsApplicableArchitecture env x = InapplicableArchitecture ↔
      x ∉ env.GetApplicableArchitectures := by
  unfold IsApplicableArchitecture InapplicableArchitecture
  by_cases h : x ∈ env.GetApplicableArchitectures
  · simp only [h, if_true, not_true_eq_false, iff_false]
    omega
  · simp [h]

theorem applicableArchitectureNames_eq_map (env : Collaborators) :
    applicableArchitectureNames env = env.GetApplicableArchitectures.map env.ToString := by
  unfold applicableArchitectureNames
  have key : ∀ (l : List Architecture) (acc : List String),
      l.foldl (fun acc i => acc ++ [env.ToString i]) acc = acc ++ l.map env.ToString := by
    intro l
    induction l with
    | nil => intro acc; simp
    | cons x xs ih => intro acc; simp [ih]
  simpa using key env.GetApplicableArchitectures []

theorem checkArchitecture_eq (env : Collaborators) (a : Args) :
    checkArchitecture env a =
      if a.Contains ArgType.InstallArchitecture = true ∧
          (env.ConvertToArchitectureEnum (a.GetArg ArgType.InstallArchitecture)
              = Architecture.Unknown ∨
            env.ConvertToArchitectureEnum (a.GetArg ArgType.InstallArchitecture)
              ∉ env.GetApplicableArchitectures)
      then Except.error (architectureError env) else Except.ok () := by
  unfold checkArchitecture
  by_cases h1 : a.Contains ArgType.InstallArchitecture = true <;>
  by_cases h2 : env.ConvertToArchitectureEnum (a.GetArg ArgType.InstallArchitecture)
      = Architecture.Unknown <;>
  by_cases h3 : env.ConvertToArchitectureEnum (a.GetArg ArgType.InstallArchitecture)
      ∈ env.GetApplicableArchitectures <;>
  simp [h1, h2, h3, isApplicable_inapplicable_iff] <;> rfl

theorem checkLocale_eq (env : Collaborators) (a : Args) :
    checkLocale env a =
      if a.Contains ArgType.Locale = true ∧
          env.IsWellFormedBcp47Tag (a.GetArg ArgType.Locale) = false
      then Except.error (localeError env) else Except.ok () := by
  unfold checkLocale
  by_cases h1 : a.Contains ArgType.Locale = true <;>
  by_cases h2 : env.IsWellFormedBcp47Tag (a.GetArg ArgType.Locale) = true <;>
  simp [h1, h2] <;> rfl

theorem validate_of_scope_error (env : Collaborators) (a : Args) (e : CommandException)
    (h1 : checkManifestQuery a = Except.ok ()) (h2 : checkScope env a = Except.error e) :
    ValidateArgumentsInternal env a = Except.error e := by
  rw [validate_eq_rules, h1, h2]; rfl

theorem validate_of_architecture_error (env : Collaborators) (a : Args) (e : CommandException)
    (h1 : checkManifestQuery a = Except.ok ()) (h2 : checkScope env a = Except.ok ())
    (h3 : checkArchitecture env a = Except.error e) :
    ValidateArgumentsInternal env a = Except.error e := by
  rw [validate_eq_rules, h1, h2, h3]; rfl

theorem validate_of_three_ok (env : Collaborators) (a : Args)
    (h1 : checkManifestQuery a = Except.ok ()) (h2 : checkScope env a = Except.ok ())
    (h3 : checkArchitecture env a = Except.ok ()) :
    ValidateArgumentsInternal env a = checkLocale env a := by
  rw [validate_eq_rules, h1, h2, h3]; rfl

theorem validate_of_manifestQuery_error (env : Collaborators) (a : Args) (e : CommandException)
    (h1 : checkManifestQuery a = Except.error e) :
    ValidateArgumentsInternal env a = Except.error e := by
  rw [validate_eq_rules, h1]; rfl

theorem contains_perm (a b : Args) (h : a.entries.Perm b.entries) (t : ArgType) :
    a.Contains t = b.Contains t := by
  unfold Args.Contains
  rw [Bool.eq_iff_iff, List.any_eq_true, List.any_eq_true]
  constructor
  · rintro ⟨p, hp, hpt⟩; exact ⟨p, h.mem_iff.mp hp, hpt⟩
  · rintro ⟨p, hp, hpt⟩; exact ⟨p, h.mem_iff.mpr hp, hpt⟩

theorem manifestQueryConflict_iff (a : Args) :
    manifestQueryConflict a = true ↔
      a.Contains ArgType.Manifest = true ∧ ∃ t ∈ queryShapingTypes, a.Contains t = true := by
  simp [manifestQueryConflict, queryShapingTypes, or_assoc]

theorem manifestQueryConflict_perm (a b : Args) (h : a.entries.Perm b.entries) :
    manifestQueryConflict a = manifestQueryConflict b := by
  unfold manifestQueryConflict
  simp only [contains_perm a b h]

theorem runRule_error_eq (env : Collaborators) (r : Rule) (a : Args) (e : CommandException)
    (h : runRule env r a = Except.error e) : e = ruleError env r := by
  cases r
  · simp only [runRule, checkManifestQuery_eq] at h
    split_ifs at h
    · injection h with h; exact h.symm
  · simp only [runRule, checkScope_eq] at h
    split_ifs at h
    · injection h with h; exact h.symm
  · simp only [runRule, checkArchitecture_eq] at h
    split_ifs at h
    · injection h with h; exact h.symm
  · simp only [runRule, checkLocale_eq] at h
    split_ifs at h
    · injection h with h; exact h.symm

theorem ruleOfError_ruleError (env : Collaborators) (r : Rule) :
    ruleOfError (ruleError env r) = some r := by
  cases r <;> simp [ruleOfError, ruleError, manifestQueryError, scopeError, architectureError,
    localeError, s_ArgumentName_Scope, s_ArgumentName_Architecture]

theorem validate_ok_iff (env : Collaborators) (a : Args) :
    ValidateArgumentsInternal env a = Except.ok () ↔
      checkManifestQuery a = Except.ok () ∧ checkScope env a = Except.ok () ∧
      checkArchitecture env a = Except.ok () ∧ checkLocale env a = Except.ok () := by
  cases h1 : checkManifestQuery a with
  | error e => simp [validate_of_manifestQuery_error env a e h1]
  | ok u =>
    cases h2 : checkScope env a with
    | error e => simp [validate_of_scope_error env a e h1 h2]
    | ok v =>
      cases h3 : checkArchitecture env a with
      | error e => simp [validate_of_architecture_error env a e h1 h2 h3]
      | ok w => simp [validate_of_three_ok env a h1 h2 h3]

theorem checkManifestQuery_ok_iff (a : Args) :
    checkManifestQuery a = Except.ok () ↔
      (a.Contains ArgType.Manifest = false ∨ ∀ t ∈ queryShapingTypes, a.Contains t = false) := by
  rw [checkManifestQuery_eq]
  by_cases h : manifestQueryConflict a = true
  · rw [if_pos h]
    have h' := (manifestQueryConflict_iff a).mp h
    obtain ⟨hm, t, ht, hc⟩ := h'
    simp only [false_iff, not_or, reduceCtorEq]
    refine ⟨by simp [hm], fun hall => ?_⟩
    rw [hall t ht] at hc
    exact absurd hc (by decide)
  · rw [if_neg h]
    simp only [true_iff]
    by_cases hm : a.Contains ArgType.Manifest = true
    · right
      intro t ht
      by_contra hc
      exact h ((manifestQueryConflict_iff a).mpr ⟨hm, t, ht, by simpa using hc⟩)
    · left; simpa using hm

theorem checkScope_ok_iff (env : Collaborators) (a : Args) :
    checkScope env a = Except.ok () ↔
      (a.Contains ArgType.InstallScope = false ∨
        env.ConvertToScopeEnum (a.GetArg ArgType.InstallScope) = ScopeEnum.User ∨
        env.ConvertToScopeEnum (a.GetArg ArgType.InstallScope) = ScopeEnum.Machine) := by
  rw [checkScope_eq]
  by_cases h1 : a.Contains ArgType.InstallScope = true <;>
  cases h2 : env.ConvertToScopeEnum (a.GetArg ArgType.InstallScope) <;>
  simp [h1]

theorem checkArchitecture_ok_iff (env : Collaborators) (a : Args) :
    checkArchitecture env a = Except.ok () ↔
      (a.Contains ArgType.InstallArchitecture = false ∨
        (env.ConvertToArchitectureEnum (a.GetArg ArgType.InstallArchitecture)
            ≠ Architecture.Unknown ∧
          env.ConvertToArchitectureEnum (a.GetArg ArgType.InstallArchitecture)
            ∈ env.GetApplicableArchitectures)) := by
  rw [checkArchitecture_eq]
  by_cases h1 : a.Contains ArgType.InstallArchitecture = true <;>
  by_cases h2 : env.ConvertToArchitectureEnum (a.GetArg ArgType.InstallArchitecture)
      = Architecture.Unknown <;>
  by_cases h3 : env.ConvertToArchitectureEnum (a.GetArg ArgType.InstallArchitecture)
      ∈ env.GetApplicableArchitectures <;>
  simp [h1, h2, h3]

theorem checkLocale_ok_iff (env : Collaborators) (a : Args) :
    checkLocale env a = Except.ok () ↔
      (a.Contains ArgType.Locale = false ∨
        env.IsWellFormedBcp47Tag (a.GetArg ArgType.Locale) = true) := by
  rw [checkLocale_eq]
  by_cases h1 : a.Contains ArgType.Locale = true <;>
  by_cases h2 : env.IsWellFormedBcp47Tag (a.GetArg ArgType.Locale) = true <;>
  simp [h1, h2]

theorem complete_single (t : ArgType) (h : t ∈ singleSemanticsTypes) {σ : Type}
    (ops : ContextOps σ) (context : σ) :
    Complete ops context t =
      ops.pipe context (WorkflowTask.CompleteWithSingleSemanticsForValue t) := by
  simp only [singleSemanticsTypes, List.mem_cons, List.mem_singleton, List.not_mem_nil,
    or_false] at h
  rcases h with rfl | rfl | rfl | rfl | rfl | rfl | rfl | rfl <;> rfl

theorem complete_other (t : ArgType) (h1 : t ∉ singleSemanticsTypes)
    (h2 : t ≠ ArgType.Locale) {σ : Type} (ops : ContextOps σ) (context : σ) :
    Complete ops context t = context := by
  cases t <;>
    first
      | rfl
      | exact absurd rfl h2
      | exact absurd (by decide) h1

/-! ## The manifest/query conflict -/

/-- C1: an argument set that contains Manifest and at least one of Query, Id, Name,
Moniker, Version, Channel, Source, Exact is rejected with the
BothManifestAndSearchQueryProvided error, whatever else it contains and whatever the
values are, and so is every reordering of it. -/
theorem validate_manifest_query_conflict (env : Collaborators) (execArgs supplied : Args)
    (hperm : execArgs.entries.Perm supplied.entries)
    (hm : execArgs.Contains ArgType.Manifest = true)
    (hq : ∃ t ∈ queryShapingTypes, execArgs.Contains t = true) :
    ValidateArgumentsInternal env supplied =
      Except.error ⟨ResourceString.BothManifestAndSearchQueryProvided, "", []⟩ := by
  have hc : manifestQueryConflict execArgs = true :=
    (manifestQueryConflict_iff execArgs).mpr ⟨hm, hq⟩
  rw [manifestQueryConflict_perm execArgs supplied hperm] at hc
  exact validate_of_conflict env supplied hc

theorem validate_manifest_query_conflict_witness :
    argsManifestThenId.entries.Perm argsIdThenManifest.entries ∧
    ValidateArgumentsInternal sampleHost argsManifestThenId =
      Except.error ⟨ResourceString.BothManifestAndSearchQueryProvided, "", []⟩ ∧
    ValidateArgumentsInternal sampleHost argsIdThenManifest =
      Except.error ⟨ResourceString.BothManifestAndSearchQueryProvided, "", []⟩ :=
  ⟨by decide,
   validate_manifest_query_conflict sampleHost argsManifestThenId argsManifestThenId
     (List.Perm.refl _) (by decide) ⟨ArgType.Id, by decide, by decide⟩,
   validate_manifest_query_conflict sampleHost argsManifestThenId argsIdThenManifest
     (by decide) (by decide) ⟨ArgType.Id, by decide, by decide⟩⟩

/-! ## The architecture rule -/

/-- C2 (counterexample): on an x64 host, `--scope bogus --architecture arm` has an
architecture outside the applicable set, yet the error raised is the scope error, whose
candidate list is user, machine and not the list of applicable architectures. -/
theorem architecture_candidates_counterexample :
    argsBadScopeBadArchitecture.Contains ArgType.InstallArchitecture = true ∧
    sampleHost.ConvertToArchitectureEnum
        (argsBadScopeBadArchitecture.GetArg ArgType.InstallArchitecture)
      ∉ sampleHost.GetApplicableArchitectures ∧
    ValidateArgumentsInternal sampleHost argsBadScopeBadArchitecture =
      Except.error ⟨ResourceString.InvalidArgumentValueError, "scope", ["user", "machine"]⟩ ∧
    (["user", "machine"] : List String) ≠
      sampleHost.GetApplicableArchitectures.map sampleHost.ToString := by
  decide

/-- C2 (amended): an argument set whose architecture argument is present with a value
that is unknown or not applicable on the host is always rejected; when neither the
manifest/query rule nor the scope rule fires, the error is InvalidArgumentValueError for
"architecture" and its candidate list is the host list of applicable architectures,
each rendered with ToString, in the host order. -/
theorem validate_architecture_rule (env : Collaborators) (execArgs : Args)
    (hpresent : execArgs.Contains ArgType.InstallArchitecture = true)
    (hbad : env.ConvertToArchitectureEnum (execArgs.GetArg ArgType.InstallArchitecture)
          = Architecture.Unknown ∨
        env.ConvertToArchitectureEnum (execArgs.GetArg ArgType.InstallArchitecture)
          ∉ env.GetApplicableArchitectures) :
    (∃ e, ValidateArgumentsInternal env execArgs = Except.error e) ∧
    (checkManifestQuery execArgs = Except.ok () → checkScope env execArgs = Except.ok () →
      ValidateArgumentsInternal env execArgs =
        Except.error ⟨ResourceString.InvalidArgumentValueError, "architecture",
          env.GetApplicableArchitectures.map env.ToString⟩) := by
  have h3 : checkArchitecture env execArgs = Except.error (architectureError env) := by
    rw [checkArchitecture_eq, if_pos ⟨hpresent, hbad⟩]
  have herr : architectureError env =
      ⟨ResourceString.InvalidArgumentValueError, "architecture",
        env.GetApplicableArchitectures.map env.ToString⟩ := by
    simp [architectureError, applicableArchitectureNames_eq_map, s_ArgumentName_Architecture]
  constructor
  · cases h1 : checkManifestQuery execArgs with
    | error e => exact ⟨e, validate_of_manifestQuery_error env execArgs e h1⟩
    | ok u =>
      cases h2 : checkScope env execArgs with
      | error e => exact ⟨e, validate_of_scope_error env execArgs e h1 h2⟩
      | ok v => exact ⟨_, validate_of_architecture_error env execArgs _ h1 h2 h3⟩
  · intro h1 h2
    rw [← herr]
    exact validate_of_architecture_error env execArgs _ h1 h2 h3

theorem validate_architecture_rule_witness :
    (∃ e, ValidateArgumentsInternal sampleHost argsBadArchitecture = Except.error e) ∧
    ValidateArgumentsInternal sampleHost argsBadArchitecture =
      Except.error ⟨ResourceString.InvalidArgumentValueError, "architecture", ["x64", "x86"]⟩ :=
  ⟨(validate_architecture_rule sampleHost argsBadArchitecture (by decide)
      (Or.inr (by decide))).1,
   (validate_architecture_rule sampleHost argsBadArchitecture (by decide)
      (Or.inr (by decide))).2 (by decide) (by decide)⟩

/-! ## The scope rule -/

/-- C3: when there is no manifest/query conflict and the scope argument is present,
a value that ConvertToScopeEnum maps to Unknown is rejected with
InvalidArgumentValueError naming "scope" and carrying exactly user, machine; a value
that maps to user or machine makes the scope rule raise nothing. -/
theorem validate_scope_rule (env : Collaborators) (execArgs : Args)
    (hnc : manifestQueryConflict execArgs = false)
    (hs : execArgs.Contains ArgType.InstallScope = true) :
    (env.ConvertToScopeEnum (execArgs.GetArg ArgType.InstallScope) = ScopeEnum.Unknown →
      ValidateArgumentsInternal env execArgs =
        Except.error ⟨ResourceString.InvalidArgumentValueError, "scope", ["user", "machine"]⟩) ∧
    (env.ConvertToScopeEnum (execArgs.GetArg ArgType.InstallScope) = ScopeEnum.User ∨
      env.ConvertToScopeEnum (execArgs.GetArg ArgType.InstallScope) = ScopeEnum.Machine →
      checkScope env execArgs = Except.ok ()) := by
  have h1 : checkManifestQuery execArgs = Except.ok () := by
    rw [checkManifestQuery_eq]; simp [hnc]
  constructor
  · intro hu
    have h2 : checkScope env execArgs = Except.error scopeError := by
      rw [checkScope_eq, if_pos ⟨hs, hu⟩]
    exact validate_of_scope_error env execArgs _ h1 h2
  · intro hv
    rw [checkScope_eq, if_neg]
    rintro ⟨_, hu⟩
    rcases hv with hv | hv <;> rw [hu] at hv <;> exact absurd hv (by decide)

theorem validate_scope_rule_witness :
    ValidateArgumentsInternal sampleHost argsBadScope =
        Except.error ⟨ResourceString.InvalidArgumentValueError, "scope", ["user", "machine"]⟩ ∧
    checkScope sampleHost argsGoodScope = Except.ok () :=
  ⟨(validate_scope_rule sampleHost argsBadScope (by decide) (by decide)).1 (by decide),
   (validate_scope_rule sampleHost argsGoodScope (by decide) (by decide)).2
     (Or.inr (by decide))⟩

/-! ## The locale rule -/

/-- C4 (counterexample): `--scope bogus --locale xx_` has a malformed locale, yet the
error raised carries the candidate list user, machine; and
`--manifest pkg.yaml --id Contoso.App --locale en-US` has a well-formed locale, yet
validation fails. -/
theorem locale_rule_counterexample :
    (argsBadScopeBadLocale.Contains ArgType.Locale = true ∧
      sampleHost.IsWellFormedBcp47Tag (argsBadScopeBadLocale.GetArg ArgType.Locale) = false ∧
      ValidateArgumentsInternal sampleHost argsBadScopeBadLocale =
        Except.error ⟨ResourceString.InvalidArgumentValueError, "scope", ["user", "machine"]⟩) ∧
    (argsConflictGoodLocale.Contains ArgType.Locale = true ∧
      sampleHost.IsWellFormedBcp47Tag (argsConflictGoodLocale.GetArg ArgType.Locale) = true ∧
      ValidateArgumentsInternal sampleHost argsConflictGoodLocale ≠ Except.ok ()) := by
  decide

/-- C4 (amended): an argument set whose locale argument is a malformed language tag is
always rejected, and when none of the manifest/query, scope and architecture rules fires
the error is InvalidArgumentValueErrorWithoutValidValues for the locale argument with
no candidate list; an argument set whose locale argument is well formed passes
validation when none of those three rules fires. -/
theorem validate_locale_rule (env : Collaborators) (execArgs : Args)
    (hl : execArgs.Contains ArgType.Locale = true) :
    (env.IsWellFormedBcp47Tag (execArgs.GetArg ArgType.Locale) = false →
      (∃ e, ValidateArgumentsInternal env execArgs = Except.error e) ∧
      (checkManifestQuery execArgs = Except.ok () → checkScope env execArgs = Except.ok () →
        checkArchitecture env execArgs = Except.ok () →
        ValidateArgumentsInternal env execArgs =
          Except.error ⟨ResourceString.InvalidArgumentValueErrorWithoutValidValues,
            env.ForTypeName ArgType.Locale, []⟩)) ∧
    (env.IsWellFormedBcp47Tag (execArgs.GetArg ArgType.Locale) = true →
      checkManifestQuery execArgs = Except.ok () → checkScope env execArgs = Except.ok () →
      checkArchitecture env execArgs = Except.ok () →
      ValidateArgumentsInternal env execArgs = Except.ok ()) := by
  constructor
  · intro hbad
    have h4 : checkLocale env execArgs = Except.error (localeError env) := by
      rw [checkLocale_eq, if_pos ⟨hl, hbad⟩]
    constructor
    · cases h1 : checkManifestQuery execArgs with
      | error e => exact ⟨e, validate_of_manifestQuery_error env execArgs e h1⟩
      | ok u =>
        cases h2 : checkScope env execArgs with
        | error e => exact ⟨e, validate_of_scope_error env execArgs e h1 h2⟩
        | ok v =>
          cases h3 : checkArchitecture env execArgs with
          | error e => exact ⟨e, validate_of_architecture_error env execArgs e h1 h2 h3⟩
          | ok w => exact ⟨_, (validate_of_three_ok env execArgs h1 h2 h3).trans h4⟩
    · intro h1 h2 h3
      exact (validate_of_three_ok env execArgs h1 h2 h3).trans h4
  · intro hgood h1 h2 h3
    rw [validate_of_three_ok env execArgs h1 h2 h3, checkLocale_eq, if_neg]
    rintro ⟨_, hb⟩
    rw [hgood] at hb
    exact absurd hb (by decide)

theorem validate_locale_rule_witness :
    ValidateArgumentsInternal sampleHost argsBadLocale =
        Except.error ⟨ResourceString.InvalidArgumentValueErrorWithoutValidValues, "locale", []⟩ ∧
    ValidateArgumentsInternal sampleHost argsGoodLocale = Except.ok () :=
  ⟨((validate_locale_rule sampleHost argsBadLocale (by decide)).1 (by decide)).2
     (by decide) (by decide) (by decide),
   (validate_locale_rule sampleHost argsGoodLocale (by decide)).2 (by decide)
     (by decide) (by decide) (by decide)⟩

/-! ## The execution pipeline -/

/-- C5 (counterexample): run on an empty recording context, ExecuteInternal sends exactly
five tasks, the last two being EnsureApplicableInstaller and InstallSinglePackage with
nothing between them; the tasks sent are not a sequence of six steps. -/
theorem executeInternal_six_steps_counterexample :
    tasksOf (ExecuteInternal recordingOps []) =
      [WorkflowTask.ReportExecutionStage ExecutionStage.Discovery, WorkflowTask.GetManifest,
       WorkflowTask.SelectInstaller, WorkflowTask.EnsureApplicableInstaller,
       WorkflowTask.InstallSinglePackage] ∧
    ¬ ∃ s1 s2 s3 s4 s5 s6 : WorkflowTask,
      tasksOf (ExecuteInternal recordingOps []) = [s1, s2, s3, s4, s5, s6] := by
  refine ⟨rfl, ?_⟩
  rintro ⟨s1, s2, s3, s4, s5, s6, h⟩
  have hlen := congrArg List.length h
  simp [ExecuteInternal, recordingOps, tasksOf] at hlen

/-- C5 (amended): for every context and every meaning of the context operations,
ExecuteInternal first sets the ShowSearchResultsOnPartialFailure flag and then sends
exactly the five tasks ReportExecutionStage(Discovery), GetManifest, SelectInstaller,
EnsureApplicableInstaller, InstallSinglePackage into the context, in this order; a
recording context observes the flag first and then these five tasks, nothing else. -/
theorem executeInternal_pipeline :
    (∀ (σ : Type) (ops : ContextOps σ) (context : σ),
      ExecuteInternal ops context =
        List.foldl ops.pipe
          (ops.SetFlags context ContextFlag.ShowSearchResultsOnPartialFailure)
          [WorkflowTask.ReportExecutionStage ExecutionStage.Discovery,
           WorkflowTask.GetManifest, WorkflowTask.SelectInstaller,
           WorkflowTask.EnsureApplicableInstaller, WorkflowTask.InstallSinglePackage]) ∧
    (∀ history : List ContextEvent,
      ExecuteInternal recordingOps history =
        history ++
          [ContextEvent.SetFlags ContextFlag.ShowSearchResultsOnPartialFailure,
           ContextEvent.Run (WorkflowTask.ReportExecutionStage ExecutionStage.Discovery),
           ContextEvent.Run WorkflowTask.GetManifest,
           ContextEvent.Run WorkflowTask.SelectInstaller,
           ContextEvent.Run WorkflowTask.EnsureApplicableInstaller,
           ContextEvent.Run WorkflowTask.InstallSinglePackage]) := by
  constructor
  · intro σ ops context
    rfl
  · intro history
    simp [ExecuteInternal, recordingOps]

/-! ## Distinct failures -/

/-- C6: two different rules never raise errors that agree both in the message resource
and in the argument name, whatever the hosts and argument sets that make them fire; the
rule is read back from the error by ruleOfError. -/
theorem rule_errors_distinct (env1 env2 : Collaborators) (a1 a2 : Args) (r1 r2 : Rule)
    (e1 e2 : CommandException) (hne : r1 ≠ r2)
    (h1 : runRule env1 r1 a1 = Except.error e1)
    (h2 : runRule env2 r2 a2 = Except.error e2) :
    (e1.message ≠ e2.message ∨ e1.param ≠ e2.param) ∧
    ruleOfError e1 = some r1 ∧ ruleOfError e2 = some r2 := by
  have he1 := runRule_error_eq env1 r1 a1 e1 h1
  have he2 := runRule_error_eq env2 r2 a2 e2 h2
  subst he1 he2
  refine ⟨?_, ruleOfError_ruleError env1 r1, ruleOfError_ruleError env2 r2⟩
  cases r1 <;> cases r2 <;>
    first
      | exact absurd rfl hne
      | (left
         simp [ruleError, manifestQueryError, scopeError, architectureError, localeError]
         done)
      | (right
         simp [ruleError, scopeError, architectureError, s_ArgumentName_Scope,
           s_ArgumentName_Architecture])

theorem rule_errors_distinct_witness :
    ((⟨ResourceString.InvalidArgumentValueError, "scope", ["user", "machine"]⟩ :
          CommandException).message ≠
        (⟨ResourceString.InvalidArgumentValueError, "architecture", ["x64", "x86"]⟩ :
          CommandException).message ∨
      (⟨ResourceString.InvalidArgumentValueError, "scope", ["user", "machine"]⟩ :
          CommandException).param ≠
        (⟨ResourceString.InvalidArgumentValueError, "architecture", ["x64", "x86"]⟩ :
          CommandException).param) ∧
    ruleOfError ⟨ResourceString.InvalidArgumentValueError, "scope", ["user", "machine"]⟩
      = some Rule.Scope ∧
    ruleOfError ⟨ResourceString.InvalidArgumentValueError, "architecture", ["x64", "x86"]⟩
      = some Rule.Architecture :=
  rule_errors_distinct sampleHost sampleHost argsBadScope argsBadArchitecture
    Rule.Scope Rule.Architecture _ _ (by decide) (by decide) (by decide)

/-! ## Completion dispatch -/

/-- C7: for every argument type, Complete takes exactly one of three branches: it sends
CompleteWithSingleSemanticsForValue of that type when the type is Query, Manifest, Id,
Name, Moniker, Version, Channel or Source; it sends CompleteWithEmptySet when the type is
Locale; for every other type, Log and InstallLocation included, it returns the context
unchanged. A recording context shows that each task is sent exactly in its case. -/
theorem complete_dispatch (valueType : ArgType) :
    ((valueType ∈ singleSemanticsTypes ∧
        ∀ (σ : Type) (ops : ContextOps σ) (context : σ),
          Complete ops context valueType =
            ops.pipe context (WorkflowTask.CompleteWithSingleSemanticsForValue valueType)) ∨
      (valueType = ArgType.Locale ∧
        ∀ (σ : Type) (ops : ContextOps σ) (context : σ),
          Complete ops context valueType = ops.pipe context WorkflowTask.CompleteWithEmptySet) ∨
      (valueType ∉ singleSemanticsTypes ∧ valueType ≠ ArgType.Locale ∧
        ∀ (σ : Type) (ops : ContextOps σ) (context : σ),
          Complete ops context valueType = context)) ∧
    (∀ history : List ContextEvent,
      (Complete recordingOps history valueType =
          history ++ [ContextEvent.Run
            (WorkflowTask.CompleteWithSingleSemanticsForValue valueType)]
        ↔ valueType ∈ singleSemanticsTypes) ∧
      (Complete recordingOps history valueType =
          history ++ [ContextEvent.Run WorkflowTask.CompleteWithEmptySet]
        ↔ valueType = ArgType.Locale) ∧
      (Complete recordingOps history valueType = history
        ↔ valueType ∉ singleSemanticsTypes ∧ valueType ≠ ArgType.Locale)) ∧
    Complete recordingOps [] ArgType.Log = [] ∧
    Complete recordingOps [] ArgType.InstallLocation = [] := by
  refine ⟨?_, ?_, rfl, rfl⟩
  · by_cases hs : valueType ∈ singleSemanticsTypes
    · exact Or.inl ⟨hs, fun σ ops context => complete_single valueType hs ops context⟩
    · by_cases hl : valueType = ArgType.Locale
      · subst hl
        exact Or.inr (Or.inl ⟨rfl, fun σ ops context => rfl⟩)
      · exact Or.inr (Or.inr ⟨hs, hl, fun σ ops context =>
          complete_other valueType hs hl ops context⟩)
  · intro history
    by_cases hs : valueType ∈ singleSemanticsTypes
    · have hl : valueType ≠ ArgType.Locale := by
        rintro rfl
        exact absurd hs (by decide)
      rw [complete_single valueType hs]
      simp [recordingOps, hs, hl]
    · by_cases hl : valueType = ArgType.Locale
      · subst hl
        have hC : Complete recordingOps history ArgType.Locale =
            history ++ [ContextEvent.Run WorkflowTask.CompleteWithEmptySet] := rfl
        rw [hC]
        simp [hs]
      · rw [complete_other valueType hs hl]
        simp [hs, hl]

/-! ## Acceptance -/

/-- C8 (counterexample): `--scope bogus` contains neither a manifest nor any query field,
yet ValidateArgumentsInternal rejects it. -/
theorem accepted_without_manifest_or_query_counterexample :
    argsOnlyBadScope.Contains ArgType.Manifest = false ∧
    (∀ t ∈ queryShapingTypes, argsOnlyBadScope.Contains t = false) ∧
    ValidateArgumentsInternal sampleHost argsOnlyBadScope =
      Except.error ⟨ResourceString.InvalidArgumentValueError, "scope", ["user", "machine"]⟩ ∧
    ValidateArgumentsInternal sampleHost argsOnlyBadScope ≠ Except.ok () := by
  decide

/-- C8 (amended): ValidateArgumentsInternal accepts an argument set if and only if
(1) Manifest is absent or none of Query, Id, Name, Moniker, Version, Channel, Source,
Exact is present, (2) the scope argument is absent or maps to user or machine, (3) the
architecture argument is absent or maps to a known architecture applicable on the host,
and (4) the locale argument is absent or well formed. The empty argument set is
accepted, and a set with neither a manifest nor any query field is accepted exactly
when (2), (3) and (4) hold for it. -/
theorem validate_accepts_iff (env : Collaborators) (execArgs : Args) :
    (ValidateArgumentsInternal env execArgs = Except.ok () ↔
      (execArgs.Contains ArgType.Manifest = false ∨
        ∀ t ∈ queryShapingTypes, execArgs.Contains t = false) ∧
      (execArgs.Contains ArgType.InstallScope = false ∨
        env.ConvertToScopeEnum (execArgs.GetArg ArgType.InstallScope) = ScopeEnum.User ∨
        env.ConvertToScopeEnum (execArgs.GetArg ArgType.InstallScope) = ScopeEnum.Machine) ∧
      (execArgs.Contains ArgType.InstallArchitecture = false ∨
        (env.ConvertToArchitectureEnum (execArgs.GetArg ArgType.InstallArchitecture)
            ≠ Architecture.Unknown ∧
          env.ConvertToArchitectureEnum (execArgs.GetArg ArgType.InstallArchitecture)
            ∈ env.GetApplicableArchitectures)) ∧
      (execArgs.Contains ArgType.Locale = false ∨
        env.IsWellFormedBcp47Tag (execArgs.GetArg ArgType.Locale) = true)) ∧
    ValidateArgumentsInternal env ⟨[]⟩ = Except.ok () ∧
    (execArgs.Contains ArgType.Manifest = false →
      (∀ t ∈ queryShapingTypes, execArgs.Contains t = false) →
      (ValidateArgumentsInternal env execArgs = Except.ok () ↔
        (execArgs.Contains ArgType.InstallScope = false ∨
          env.ConvertToScopeEnum (execArgs.GetArg ArgType.InstallScope) = ScopeEnum.User ∨
          env.ConvertToScopeEnum (execArgs.GetArg ArgType.InstallScope) = ScopeEnum.Machine) ∧
        (execArgs.Contains ArgType.InstallArchitecture = false ∨
          (env.ConvertToArchitectureEnum (execArgs.GetArg ArgType.InstallArchitecture)
              ≠ Architecture.Unknown ∧
            env.ConvertToArchitectureEnum (execArgs.GetArg ArgType.InstallArchitecture)
              ∈ env.GetApplicableArchitectures)) ∧
        (execArgs.Contains ArgType.Locale = false ∨
          env.IsWellFormedBcp47Tag (execArgs.GetArg ArgType.Locale) = true))) := by
  have key : ∀ a : Args, (ValidateArgumentsInternal env a = Except.ok () ↔
      (a.Contains ArgType.Manifest = false ∨ ∀ t ∈ queryShapingTypes, a.Contains t = false) ∧
      (a.Contains ArgType.InstallScope = false ∨
        env.ConvertToScopeEnum (a.GetArg ArgType.InstallScope) = ScopeEnum.User ∨
        env.ConvertToScopeEnum (a.GetArg ArgType.InstallScope) = ScopeEnum.Machine) ∧
      (a.Contains ArgType.InstallArchitecture = false ∨
        (env.ConvertToArchitectureEnum (a.GetArg ArgType.InstallArchitecture)
            ≠ Architecture.Unknown ∧
          env.ConvertToArchitectureEnum (a.GetArg ArgType.InstallArchitecture)
            ∈ env.GetApplicableArchitectures)) ∧
      (a.Contains ArgType.Locale = false ∨
        env.IsWellFormedBcp47Tag (a.GetArg ArgType.Locale) = true)) := by
    intro a
    rw [validate_ok_iff, checkManifestQuery_ok_iff, checkScope_ok_iff,
      checkArchitecture_ok_iff, checkLocale_ok_iff]
  refine ⟨key execArgs, ?_, ?_⟩
  · rw [key]
    exact ⟨Or.inl rfl, Or.inl rfl, Or.inl rfl, Or.inl rfl⟩
  · intro hm hq
    rw [key]
    constructor
    · intro h; exact h.2
    · intro h; exact ⟨Or.inl hm, h⟩

theorem validate_accepts_iff_witness :
    ValidateArgumentsInternal sampleHost argsAllValid = Except.ok () ∧
    ValidateArgumentsInternal sampleHost argsSilentLog = Except.ok () :=
  ⟨(validate_accepts_iff sampleHost argsAllValid).1.mpr
      ⟨Or.inl (by decide), Or.inr (Or.inl (by decide)),
        Or.inr ⟨by decide, by decide⟩, Or.inr (by decide)⟩,
   ((validate_accepts_iff sampleHost argsSilentLog).2.2 (by decide) (by decide)).mpr
      ⟨Or.inl (by decide), Or.inl (by decide), Or.inl (by decide)⟩⟩

/-! ## Order of the rules -/

/-- C9: ValidateArgumentsInternal reports the error of the first violated rule in the
order manifest/query, scope, architecture, locale: a rule that raises an error while
every earlier rule is satisfied decides the result, and every error reported is the error
of a rule whose earlier rules are all satisfied. In particular, without a
manifest/query conflict, an invalid scope together with an unknown or inapplicable
architecture yields the scope error with candidates user, machine. -/
theorem validate_reports_first_violation (env : Collaborators) (execArgs : Args) :
    (∀ (r : Rule) (e : CommandException), runRule env r execArgs = Except.error e →
      (∀ r' : Rule, r'.index < r.index → runRule env r' execArgs = Except.ok ()) →
      ValidateArgumentsInternal env execArgs = Except.error e) ∧
    (∀ e : CommandException, ValidateArgumentsInternal env execArgs = Except.error e →
      ∃ r : Rule, runRule env r execArgs = Except.error e ∧
        ∀ r' : Rule, r'.index < r.index → runRule env r' execArgs = Except.ok ()) ∧
    (manifestQueryConflict execArgs = false →
      execArgs.Contains ArgType.InstallScope = true →
      env.ConvertToScopeEnum (execArgs.GetArg ArgType.InstallScope) = ScopeEnum.Unknown →
      execArgs.Contains ArgType.InstallArchitecture = true →
      (env.ConvertToArchitectureEnum (execArgs.GetArg ArgType.InstallArchitecture)
          = Architecture.Unknown ∨
        env.ConvertToArchitectureEnum (execArgs.GetArg ArgType.InstallArchitecture)
          ∉ env.GetApplicableArchitectures) →
      ValidateArgumentsInternal env execArgs =
        Except.error ⟨ResourceString.InvalidArgumentValueError, "scope",
          ["user", "machine"]⟩) := by
  refine ⟨?_, ?_, ?_⟩
  · intro r e he hbefore
    cases r with
    | ManifestQuery => exact validate_of_manifestQuery_error env execArgs e he
    | Scope =>
      exact validate_of_scope_error env execArgs e
        (hbefore Rule.ManifestQuery (by decide)) he
    | Architecture =>
      exact validate_of_architecture_error env execArgs e
        (hbefore Rule.ManifestQuery (by decide)) (hbefore Rule.Scope (by decide)) he
    | Locale =>
      exact (validate_of_three_ok env execArgs (hbefore Rule.ManifestQuery (by decide))
        (hbefore Rule.Scope (by decide)) (hbefore Rule.Architecture (by decide))).trans he
  · intro e he
    cases h1 : checkManifestQuery execArgs with
    | error e1 =>
      rw [validate_of_manifestQuery_error env execArgs e1 h1] at he
      injection he with he
      subst he
      refine ⟨Rule.ManifestQuery, h1, ?_⟩
      intro r' hr'
      cases r' <;> simp [Rule.index] at hr'
    | ok u =>
      cases h2 : checkScope env execArgs with
      | error e2 =>
        rw [validate_of_scope_error env execArgs e2 h1 h2] at he
        injection he with he
        subst he
        refine ⟨Rule.Scope, h2, ?_⟩
        intro r' hr'
        cases r' <;> first | exact h1 | simp [Rule.index] at hr'
      | ok v =>
        cases h3 : checkArchitecture env execArgs with
        | error e3 =>
          rw [validate_of_architecture_error env execArgs e3 h1 h2 h3] at he
          injection he with he
          subst he
          refine ⟨Rule.Architecture, h3, ?_⟩
          intro r' hr'
          cases r' <;> first | exact h1 | exact h2 | simp [Rule.index] at hr'
        | ok w =>
          rw [validate_of_three_ok env execArgs h1 h2 h3] at he
          refine ⟨Rule.Locale, he, ?_⟩
          intro r' hr'
          cases r' <;> first | exact h1 | exact h2 | exact h3 | simp [Rule.index] at hr'
  · intro hnc hs hu _ _
    have h1 : checkManifestQuery execArgs = Except.ok () := by
      rw [checkManifestQuery_eq]; simp [hnc]
    have h2 : checkScope env execArgs = Except.error scopeError := by
      rw [checkScope_eq, if_pos ⟨hs, hu⟩]
    exact validate_of_scope_error env execArgs _ h1 h2

theorem validate_reports_first_violation_witness :
    ValidateArgumentsInternal sampleHost argsBadScopeBadArchitecture =
        Except.error ⟨ResourceString.InvalidArgumentValueError, "scope", ["user", "machine"]⟩ ∧
    ValidateArgumentsInternal sampleHost argsBadScopeBadArchitecture =
        Except.error scopeError :=
  ⟨(validate_reports_first_violation sampleHost argsBadScopeBadArchitecture).2.2
      (by decide) (by decide) (by decide) (by decide) (Or.inr (by decide)),
   (validate_reports_first_violation sampleHost argsBadScopeBadArchitecture).1
      Rule.Scope scopeError (by decide)
      (fun r' hr' => by cases r' <;> first | decide | simp [Rule.index] at hr')⟩

/-! ## Declared arguments -/

/-- C10: the argument list of GetArguments names no argument type twice; it contains
every type that ValidateArgumentsInternal reads and every type that Complete has a case
for; ValidateArgumentsInternal depends on the argument set only through Contains and
GetArg at the types it reads; and Complete sends a task only for a declared type. -/
theorem getArguments_consistent :
    (GetArguments.map Argument.ExecArgType).Nodup ∧
    (∀ t ∈ validatedTypes, t ∈ GetArguments.map Argument.ExecArgType) ∧
    (∀ t ∈ completionCaseTypes, t ∈ GetArguments.map Argument.ExecArgType) ∧
    (∀ (env : Collaborators) (a b : Args),
      (∀ t ∈ validatedTypes, a.Contains t = b.Contains t ∧ a.GetArg t = b.GetArg t) →
      ValidateArgumentsInternal env a = ValidateArgumentsInternal env b) ∧
    (∀ (t : ArgType) (history : List ContextEvent),
      Complete recordingOps history t ≠ history → t ∈ GetArguments.map Argument.ExecArgType) := by
  refine ⟨by decide, by decide, by decide, ?_, ?_⟩
  · intro env a b h
    have hc : ∀ t ∈ validatedTypes, a.Contains t = b.Contains t := fun t ht => (h t ht).1
    have hg : ∀ t ∈ validatedTypes, a.GetArg t = b.GetArg t := fun t ht => (h t ht).2
    rw [validate_eq_rules, validate_eq_rules, checkManifestQuery_eq, checkManifestQuery_eq,
      checkScope_eq, checkScope_eq, checkArchitecture_eq, checkArchitecture_eq,
      checkLocale_eq, checkLocale_eq]
    unfold manifestQueryConflict
    rw [hc ArgType.Manifest (by decide), hc ArgType.Query (by decide),
      hc ArgType.Id (by decide), hc ArgType.Name (by decide),
      hc ArgType.Moniker (by decide), hc ArgType.Version (by decide),
      hc ArgType.Channel (by decide), hc ArgType.Source (by decide),
      hc ArgType.Exact (by decide), hc ArgType.InstallScope (by decide),
      hc ArgType.InstallArchitecture (by decide), hc ArgType.Locale (by decide),
      hg ArgType.InstallScope (by decide), hg ArgType.InstallArchitecture (by decide),
      hg ArgType.Locale (by decide)]
  · intro t history hne
    by_cases hs : t ∈ singleSemanticsTypes
    · exact (by decide : ∀ t ∈ singleSemanticsTypes,
        t ∈ GetArguments.map Argument.ExecArgType) t hs
    · by_cases hl : t = ArgType.Locale
      · subst hl; decide
      · exact absurd (complete_other t hs hl recordingOps history) hne

theorem getArguments_consistent_witness :
    ArgType.Locale ∈ GetArguments.map Argument.ExecArgType ∧
    ArgType.Id ∈ GetArguments.map Argument.ExecArgType ∧
    ValidateArgumentsInternal sampleHost argsAllValid =
      ValidateArgumentsInternal sampleHost argsAllValidSilent :=
  ⟨getArguments_consistent.2.1 ArgType.Locale (by decide),
   getArguments_consistent.2.2.2.2 ArgType.Id [] (by decide),
   getArguments_consistent.2.2.2.1 sampleHost argsAllValid argsAllValidSilent (by decide)⟩

end AppInstaller.CLI
